import Mathlib

/-!
Verification of `src/analyze-schema-compression.py` (a Python 2 script that
generates column-encoding migration SQL for Redshift tables).

The definitions below are a shallow embedding of the script, translated
line by line from the source.  Python values that may be either strings,
booleans or `None` are modelled by `PyVal`; Python 2 semantics (integer
division for `/`, truthiness, `str()`, comparison of values of different
types) are modelled explicitly where the script depends on them.
-/

deriving instance DecidableEq for Except

namespace ASC

/-- Model of a dynamically typed Python value as it can appear in the
`pg_table_def` catalog rows used by the script: a string, a boolean, or
`None`. -/
inductive PyVal where
  | str : String → PyVal
  | pybool : Bool → PyVal
  | pynone : PyVal
deriving DecidableEq, Repr

/-- Python truthiness (`if v:`): a string is truthy iff non-empty, a boolean
is itself, `None` is falsy. -/
def pyTruthy : PyVal → Bool
  | PyVal.str s => !(s == "")
  | PyVal.pybool b => b
  | PyVal.pynone => false

/-- Python `str()` applied to a `PyVal`. -/
def pyStr : PyVal → String
  | PyVal.str s => s
  | PyVal.pybool true => "True"
  | PyVal.pybool false => "False"
  | PyVal.pynone => "None"

/-- ASCII upper-casing of one character, as Python `str.upper` does on the
ASCII strings that occur here. -/
def pyCharUpper (c : Char) : Char :=
  if 'a' ≤ c ∧ c ≤ 'z' then Char.ofNat (c.toNat - 32) else c

/-- Python `str.upper` on a string (ASCII). -/
def pyUpper (s : String) : String := ⟨s.data.map pyCharUpper⟩

/-- One scanning step of Python `str.replace` over the character list, with
explicit fuel (the fuel is set to the length of the list, which is enough:
every step consumes at least one character).  At each position the pattern,
if it matches, is replaced and scanning resumes after it (non-overlapping,
left to right), exactly as Python's `str.replace` with a non-empty pattern. -/
def replaceChFuel (pat repl : List Char) : Nat → List Char → List Char
  | 0, l => l
  | _ + 1, [] => []
  | fuel + 1, c :: rest =>
    if List.isPrefixOf pat (c :: rest) then
      repl ++ replaceChFuel pat repl fuel (List.drop (pat.length - 1) rest)
    else
      c :: replaceChFuel pat repl fuel rest

/-- Python `s.replace(pat, repl)` for a non-empty pattern. -/
def pyReplace (s pat repl : String) : String :=
  ⟨replaceChFuel pat.data repl.data s.data.length s.data⟩

/-- One row of the catalog description returned by `get_table_desc`
(source lines 182-198): the tuple
`("column", type, encoding, distkey, sortkey, "notnull")` selected from
`pg_table_def`.  `encoding` is the column's current encoding.  `distkey`
and `notnull` are kept as dynamically typed values because the script
compares them against strings. -/
structure DescRow where
  column : String
  type : String
  encoding : String
  distkey : PyVal
  sortkey : Int
  notnull : PyVal
deriving DecidableEq, Repr

/-- One row of the `analyze compression` output consumed by the loop at
source line 280: `row[1]` is the column name, `row[2]` the recommended
encoding. -/
structure OutRow where
  col : String
  encoding : String
deriving DecidableEq, Repr

/-- `get_table_attribute(description_list, column_name, index)`
(source lines 175-180): first row of the description whose first component
equals the column name (`None`, i.e. `Option.none`, when absent). -/
def findDesc (descr : List DescRow) (col : String) : Option DescRow :=
  descr.find? (fun d => d.column == col)

/-- Datatype normalisation at source line 289:
`col_type.replace('character varying','varchar').replace('without time zone','')`. -/
def normalizeType (t : String) : String :=
  pyReplace (pyReplace t "character varying" "varchar") "without time zone" ""

/-- Distribution-key clause, source lines 292-296:
`'DISTKEY' if distkey or str(distkey).upper()=='TRUE' else ''`. -/
def distkeyClause (v : PyVal) : String :=
  if pyTruthy v || (pyUpper (pyStr v) == "TRUE") then "DISTKEY" else ""

/-- Null clause, source lines 313-318: `'NOT NULL'` exactly when the
catalog's `notnull` value equals the string `'true'` (note: a Python
boolean `True` is not equal to the string `'true'`, so it yields `''`). -/
def notNullClause (v : PyVal) : String :=
  if v = PyVal.str "true" then "NOT NULL" else ""

/-- The `sortkeys` Python dict (abs position ↦ column name) as an
association list; assigning to an existing key replaces its value,
assigning a new key appends it. -/
def dictInsert (d : List (Nat × String)) (k : Nat) (v : String) :
    List (Nat × String) :=
  if d.any (fun p => p.1 == k) then
    d.map (fun p => if p.1 == k then (k, v) else p)
  else
    d ++ [(k, v)]

/-- Python `d[k]` on the `sortkeys` dict, `Option.none` for a `KeyError`. -/
def dictGet (d : List (Nat × String)) (k : Nat) : Option String :=
  (d.find? (fun p => p.1 == k)).map Prod.snd

/-- The mutable state built up by the per-row loop of `analyze`
(source lines 273-321). -/
structure SynthState where
  found_non_raw : Bool
  encode_columns : List String
  sortkeys : List (Nat × String)
  has_zindex_sortkeys : Bool
deriving DecidableEq, Repr

/-- Initial loop state (source lines 273-277). -/
def initState : SynthState := ⟨false, [], [], false⟩

/-- The formatted column specification of source line 321:
`'%s %s %s encode %s %s' % (col, col_type, col_null, compression, distkey)`
where `compression` is `'RAW'` when `abs(sortkey) == 1` (source lines
307-311) and otherwise the analyzer's recommendation `row[2]`. -/
def colSpec (row : OutRow) (d : DescRow) : String :=
  row.col ++ " " ++ normalizeType d.type ++ " " ++ notNullClause d.notnull ++
    " encode " ++ (if d.sortkey.natAbs = 1 then "RAW" else row.encoding) ++
    " " ++ distkeyClause d.distkey

/-- Effect of one loop iteration (source lines 280-321) on the state, given
the catalog row `d` found for the output row's column. -/
def applyRow (st : SynthState) (row : OutRow) (d : DescRow) : SynthState :=
  { found_non_raw := st.found_non_raw || !(row.encoding == "raw"),
    encode_columns := st.encode_columns ++ [colSpec row d],
    sortkeys :=
      if d.sortkey ≠ 0 then dictInsert st.sortkeys d.sortkey.natAbs row.col
      else st.sortkeys,
    has_zindex_sortkeys :=
      if d.sortkey ≠ 0 then
        (if d.sortkey < 0 then true else st.has_zindex_sortkeys)
      else st.has_zindex_sortkeys }

/-- One loop iteration.  When the column is absent from the catalog
description, `get_table_attribute` returns `None` and the script raises a
`TypeError` at `col_type.replace` (source line 289), caught by the outer
handler; this is the `Except.error` case. -/
def processRow (descr : List DescRow) (st : SynthState) (row : OutRow) :
    Except Unit SynthState :=
  match findDesc descr row.col with
  | Option.none => Except.error ()
  | Option.some d => Except.ok (applyRow st row d)

/-- The whole per-row loop of `analyze` (source lines 280-321). -/
def processOutput (descr : List DescRow) (output : List OutRow) :
    Except Unit SynthState :=
  output.foldlM (processRow descr) initState

/-- Staging-table naming, source lines 264-267: `<name>_$mig` when the
target schema is the analysis schema, otherwise the original name. -/
structure Config where
  analyze_schema : String
  target_schema : String
  drop_old_data : Bool
  force : Bool
deriving DecidableEq, Repr

/-- `target_table` of source lines 264-267. -/
def targetTableName (cfg : Config) (table_name : String) : String :=
  if cfg.target_schema = cfg.analyze_schema then table_name ++ "_$mig"
  else table_name

/-- Column block of the create statement, source lines 325-326: each
specification on its own line, a leading comma on all but the first. -/
def colsBlockGo : Bool → List String → String
  | _, [] => ""
  | first, s :: rest =>
    "\n" ++ (if first then "" else ",") ++ s ++ colsBlockGo false rest

/-- Column block starting at the first column. -/
def colsBlock (l : List String) : String := colsBlockGo true l

/-- The successive lookups `sortkeys[i]` for `i = start, start+1, ...`
(`n` of them), failing like the `KeyError` of source line 335 when a key is
missing. -/
def collectSortkeys (d : List (Nat × String)) (start : Nat) :
    Nat → Except Unit (List String)
  | 0 => Except.ok []
  | n + 1 =>
    match dictGet d start with
    | Option.none => Except.error ()
    | Option.some c => (collectSortkeys d (start + 1) n).map (fun l => c :: l)

/-- The columns of the SORTKEY clause in loop order, source lines 334-340:
`sortkeys[1]`, `sortkeys[2]`, ..., `sortkeys[len(sortkeys)]`. -/
def sortkeyCols (d : List (Nat × String)) : Except Unit (List String) :=
  collectSortkeys d 1 d.length

/-- Rendering of the clause body by the loop of source lines 334-340:
columns separated by `,`, the last one followed by `)\n`. -/
def renderSortkeyBody : List String → String
  | [] => ""
  | [c] => c ++ ")\n"
  | c :: rest => c ++ "," ++ renderSortkeyBody rest

/-- Opening of the clause, source line 332:
`'\n%sSORTKEY(' % ('INTERLEAVED ' if has_zindex_sortkeys else '')`. -/
def sortkeyClauseOpen (hz : Bool) : String :=
  "\n" ++ (if hz then "INTERLEAVED " else "") ++ "SORTKEY("

/-- The create statement after the optional SORTKEY block, source lines
330-341: when the dict is non-empty the clause is appended as
`' %s '`, otherwise the statement is unchanged. -/
def buildCreate1 (st : SynthState) (create0 : String) : Except Unit String :=
  if st.sortkeys.length > 0 then
    (sortkeyCols st.sortkeys).map (fun cols =>
      create0 ++ " " ++
        (sortkeyClauseOpen st.has_zindex_sortkeys ++ renderSortkeyBody cols) ++
        " ")
  else Except.ok create0

/-- Insert statement, source line 349. -/
def insertStmt (cfg : Config) (table_name : String) : String :=
  "-- migrating data to new structure\ninsert into " ++ cfg.target_schema ++
    "." ++ targetTableName cfg table_name ++ " select * from " ++
    cfg.analyze_schema ++ "." ++ table_name ++ ";\n"

/-- Analyze statement, source line 353. -/
def analyzeStmt (cfg : Config) (table_name : String) : String :=
  "analyze " ++ cfg.target_schema ++ "." ++ targetTableName cfg table_name ++
    ";\n"

/-- Drop-or-rename of the original table, source lines 358-361. -/
def dropOrRenameStmt (cfg : Config) (table_name : String) : String :=
  if cfg.drop_old_data then
    "drop table " ++ cfg.target_schema ++ "." ++ table_name ++ ";\n"
  else
    "alter table " ++ cfg.target_schema ++ "." ++ table_name ++
      " rename to " ++ (table_name ++ "_$old") ++ ";\n"

/-- Rename of the staging table back to the original name, source line 366. -/
def renameStagingStmt (cfg : Config) (table_name : String) : String :=
  "alter table " ++ cfg.target_schema ++ "." ++ targetTableName cfg table_name ++
    " rename to " ++ table_name ++ ";\n"

/-- The create statement before the SORTKEY block, source lines 269 and
325-328: the comment-plus-`begin` header, the `create table` opening, the
column block and the closing `\n)`. -/
def createPrefix (cfg : Config) (table_name : String) (st : SynthState) :
    String :=
  "-- creating migration table for " ++ table_name ++
    "\nbegin;\n\ncreate table " ++ cfg.target_schema ++ "." ++
    targetTableName cfg table_name ++ "(" ++
    colsBlock st.encode_columns ++ "\n)"

/-- The `statements` list built at source lines 343-369: the finished
create statement, the insert, the analyze, then (only when the target
schema is the analysis schema) the drop-or-rename of the original table and
the rename of the staging table, and finally `commit`. -/
def assembleStmts (cfg : Config) (table_name : String) (create1 : String) :
    List String :=
  [create1 ++ ";\n", insertStmt cfg table_name, analyzeStmt cfg table_name] ++
    (if cfg.target_schema = cfg.analyze_schema then
      [dropOrRenameStmt cfg table_name, renameStagingStmt cfg table_name]
    else []) ++
    ["commit;\n"]

/-- Statement synthesis from the loop state (source lines 323-369): a plan
is built only when a non-raw recommendation was seen or force mode is on,
otherwise `statements` stays empty. -/
def synthFromState (cfg : Config) (table_name : String) (st : SynthState) :
    Except Unit (List String) :=
  if st.found_non_raw || cfg.force then
    (buildCreate1 st (createPrefix cfg table_name st)).map
      (assembleStmts cfg table_name)
  else Except.ok []

/-- The script-synthesis core of `analyze` (source lines 264-369): the list
of SQL statements accumulated in `statements`.  It is empty (no plan) when
no non-raw recommendation was seen and force mode is off (source line 323);
`Except.error` models an exception reaching the handler at line 376. -/
def synthesize (cfg : Config) (table_name : String) (descr : List DescRow)
    (output : List OutRow) : Except Unit (List String) :=
  match processOutput descr output with
  | Except.error e => Except.error e
  | Except.ok st => synthFromState cfg table_name st

/-- The Boolean test whether an analyzer output row's column has a negative
sort-key position in the catalog description (the condition of source
lines 304-305). -/
def negSortkey (descr : List DescRow) (r : OutRow) : Bool :=
  match findDesc descr r.col with
  | Option.some d => decide (d.sortkey < 0)
  | Option.none => false

/-- Per-statement outcome of `run_commands` (source lines 200-218): which
commands were attempted, whether the transaction was rolled back, and the
returned Boolean. -/
structure RunOutcome where
  attempted : List String
  rolledBack : Bool
  result : Bool
deriving DecidableEq, Repr

/-- The loop of `run_commands` starting at command index `i`: the database
is abstracted as the oracle `fails` telling which execution raises.  On the
first failure the transaction is rolled back and `False` is returned
(source lines 210-214); no later command is attempted. -/
def runCommandsFrom (fails : Nat → Bool) : Nat → List String → RunOutcome
  | _, [] => ⟨[], false, true⟩
  | i, c :: rest =>
    if fails i then ⟨[c], true, false⟩
    else
      let o := runCommandsFrom fails (i + 1) rest
      ⟨c :: o.attempted, o.rolledBack, o.result⟩

/-- `run_commands(conn, commands)`, source lines 200-218. -/
def run_commands (fails : Nat → Bool) (commands : List String) : RunOutcome :=
  runCommandsFrom fails 0 commands

/-- Actions issued on the database session by the analyze retry loop. -/
inductive SessionAct where
  | execute : SessionAct
  | rollback : SessionAct
  | sleep : Int → SessionAct
deriving DecidableEq, Repr

/-- `RETRY_TIMEOUT = 100/1000` at source line 57.  The script runs under
Python 2 (it uses `print` statements), where `/` on two ints is floor
division, so this is `0`, although the comment at source line 56 documents
the value as 100 ms. -/
def RETRY_TIMEOUT : Int := Int.fdiv 100 1000

/-- `analyze_retry = 10` at source line 239. -/
def analyze_retry : Nat := 10

/-- Seconds slept at source line 258 after the `attempt`-th failed attempt:
`2**attempt_count * RETRY_TIMEOUT` (an int times an int in Python 2). -/
def backoffSleepSeconds (attempt : Nat) : Int := 2 ^ attempt * RETRY_TIMEOUT

/-- The retry loop of `analyze`, source lines 242-258, with `rem` remaining
allowed attempts and `count` the current `attempt_count`; `fails n` tells
whether the n-th execution attempt (0-based) raises an exception.  Each
attempt issues an execute; on failure `attempt_count` is incremented and
the script then evaluates `local_conn.rollback` at line 255 — an attribute
reference without a call, which performs no session action — and sleeps
`2**attempt_count * RETRY_TIMEOUT` seconds.  The Boolean result tells
whether any attempt succeeded (`output != None`). -/
def analyzeRetryFrom (fails : Nat → Bool) : Nat → Nat → List SessionAct × Bool
  | _, 0 => ([], false)
  | count, rem + 1 =>
    if fails count then
      let rest := analyzeRetryFrom fails (count + 1) rem
      (SessionAct.execute ::
         SessionAct.sleep (backoffSleepSeconds (count + 1)) :: rest.1,
       rest.2)
    else ([SessionAct.execute], true)

/-- The whole retry loop: `attempt_count = 0`, at most `analyze_retry`
attempts. -/
def analyzeRetryTrace (fails : Nat → Bool) : List SessionAct × Bool :=
  analyzeRetryFrom fails 0 analyze_retry

/-- `OK = 0`, source line 49. -/
def OK : Int := 0

/-- A Python value as handled by the result aggregation at the end of
`main`: an int status or a list. -/
inductive PyObj where
  | int : Int → PyObj
  | list : List PyObj → PyObj

/-- Python 2 `ret != OK` where `OK` is the int `0`: an int compares by
value, while a list is never equal to an int. -/
def neOK : PyObj → Bool
  | PyObj.int n => !(n == 0)
  | PyObj.list _ => true

/-- Exit status produced by `sys.exit(arg)`: an int is used as the status;
any other object (such as a list) is printed to stderr and the exit status
is 1. -/
def sysExitStatus : PyObj → Int
  | PyObj.int n => n
  | PyObj.list _ => 1

/-- The result aggregation of `main`, source lines 592-627, given that the
pool map returned the per-table statuses `result`: `worker_output = []`,
then `worker_output.append([result])`, then
`for ret in worker_output: if ret != OK: sys.exit(ret)` and finally
`sys.exit(OK)`. -/
def mainExitStatus (result : List Int) : Int :=
  match [PyObj.list [PyObj.list (result.map PyObj.int)]].find? neOK with
  | Option.some ret => sysExitStatus ret
  | Option.none => OK

/-! Concrete inputs used by the witnesses and counterexamples below. -/

/-- A run configuration migrating in place in schema `public`, with force
mode off and old data kept. -/
def cfgW : Config := ⟨"public", "public", false, false⟩

/-- Catalog description of a one-column table whose column `c` currently
has the `lzo` encoding. -/
def descrLzo : List DescRow :=
  [⟨"c", "int", "lzo", PyVal.pybool false, 0, PyVal.pybool false⟩]

/-- Analyzer output recommending `lzo` for column `c` — equal to its
current encoding. -/
def outLzo : List OutRow := [⟨"c", "lzo"⟩]

/-- Catalog description of a one-column table whose column `c` currently
has the `raw` encoding. -/
def descrRaw : List DescRow :=
  [⟨"c", "int", "raw", PyVal.pybool false, 0, PyVal.pybool false⟩]

/-- Analyzer output recommending `raw` for column `c`. -/
def outRaw : List OutRow := [⟨"c", "raw"⟩]

/-- A two-column table: `a` is the second sort key, `b` the first, and the
catalog returns them in the order `a`, `b` (scrambled relative to the
sort-key ordinals). -/
def descrTwoKeys : List DescRow :=
  [⟨"a", "int", "raw", PyVal.pybool false, 2, PyVal.pybool false⟩,
   ⟨"b", "varchar(10)", "raw", PyVal.pybool false, 1, PyVal.str "true"⟩]

/-- Analyzer output for the two-column table. -/
def outTwoKeys : List OutRow := [⟨"a", "lzo"⟩, ⟨"b", "delta"⟩]

/-- The `sortkeys` dict built from `descrTwoKeys` and `outTwoKeys`. -/
def skTwoKeys : List (Nat × String) := [(2, "a"), (1, "b")]

/-- The SORTKEY clause columns for `skTwoKeys`. -/
def colsTwoKeys : List String := ["b", "a"]

/-- A one-column table whose column participates in an interleaved sort
(negative sort-key position). -/
def descrNeg : List DescRow :=
  [⟨"a", "int", "raw", PyVal.pybool false, -1, PyVal.pybool false⟩]

/-- Analyzer output for the interleaved-sort table. -/
def outNeg : List OutRow := [⟨"a", "lzo"⟩]

/-- A separate copy of the in-place configuration for the plan-shape
witness. -/
def cfgPlan : Config := ⟨"public", "public", false, false⟩

/-- Catalog description for the plan-shape witness. -/
def descrPlan : List DescRow :=
  [⟨"c", "int", "raw", PyVal.pybool false, 0, PyVal.pybool false⟩]

/-- Analyzer output for the plan-shape witness. -/
def outPlan : List OutRow := [⟨"c", "lzo"⟩]

/-- The statement list `synthesize` produces for the plan-shape witness. -/
def stmtsPlan : List String :=
  ["-- creating migration table for t1\nbegin;\n\ncreate table public.t1_$mig(\nc int  encode lzo \n);\n",
   "-- migrating data to new structure\ninsert into public.t1_$mig select * from public.t1;\n",
   "analyze public.t1_$mig;\n",
   "alter table public.t1 rename to t1_$old;\n",
   "alter table public.t1_$mig rename to t1;\n",
   "commit;\n"]

/-- A failure oracle under which only the second statement fails. -/
def failsSecond : Nat → Bool := fun n => n == 1

/-- A three-statement plan for the executor witness. -/
def cmdsThree : List String := ["s1;", "s2;", "s3;"]

end ASC

namespace ASC

/-! General helper lemmas. -/

theorem except_map_ok {α β : Type} (f : α → β) (x : Except Unit α) (b : β)
    (h : x.map f = Except.ok b) : ∃ a, x = Except.ok a ∧ f a = b := by
  cases x with
  | error e => simp [Except.map] at h
  | ok a => exact ⟨a, rfl, by simpa [Except.map] using h⟩

theorem except_bind_ok {α β : Type} (x : Except Unit α)
    (f : α → Except Unit β) (b : β) (h : (x >>= f) = Except.ok b) :
    ∃ a, x = Except.ok a ∧ f a = Except.ok b := by
  cases x with
  | error e => simp [Bind.bind, Except.bind] at h
  | ok a => exact ⟨a, rfl, by simpa [Bind.bind, Except.bind] using h⟩

/-- When a loop iteration succeeds, the column was found and the new state
is `applyRow`. -/
theorem processRow_ok (descr : List DescRow) (st st' : SynthState)
    (row : OutRow) (h : processRow descr st row = Except.ok st') :
    ∃ d, findDesc descr row.col = Option.some d ∧ st' = applyRow st row d := by
  unfold processRow at h
  cases hd : findDesc descr row.col with
  | none => rw [hd] at h; simp at h
  | some d => rw [hd] at h; exact ⟨d, rfl, by simpa using h.symm⟩

/-! Claim C1. -/

/-- C1: for every analyzer output row whose column's catalog description
has `abs(sort_key_position) == 1`, the column definition emitted for it
uses the no-op `RAW` encoding, regardless of the encoding the analyzer
recommended (`r.encoding` is arbitrary here). -/
theorem first_sortkey_forced_raw
    (descr : List DescRow) (st : SynthState) (r : OutRow) (d : DescRow)
    (cols : List String)
    (h1 : findDesc descr r.col = Option.some d)
    (h2 : d.sortkey.natAbs = 1)
    (h3 : (processRow descr st r).map SynthState.encode_columns
            = Except.ok cols) :
    cols = st.encode_columns ++
      [r.col ++ " " ++ normalizeType d.type ++ " " ++
        notNullClause d.notnull ++ " encode " ++ "RAW" ++ " " ++
        distkeyClause d.distkey] := by
  unfold processRow at h3
  rw [h1] at h3
  simp only [Except.map] at h3
  have hc : cols = (applyRow st r d).encode_columns := by
    cases h3; rfl
  rw [hc]
  simp [applyRow, colSpec, h2]

/-- Witness for C1 at a concrete input: column `b` is the first sort key
and the analyzer recommended `delta`, yet the emitted definition encodes
`RAW`. -/
theorem first_sortkey_forced_raw_witness :
    (["b varchar(10) NOT NULL encode RAW "] : List String) =
      initState.encode_columns ++
        ["b" ++ " " ++ normalizeType "varchar(10)" ++ " " ++
          notNullClause (PyVal.str "true") ++ " encode " ++ "RAW" ++ " " ++
          distkeyClause (PyVal.pybool false)] :=
  first_sortkey_forced_raw descrTwoKeys initState ⟨"b", "delta"⟩
    ⟨"b", "varchar(10)", "raw", PyVal.pybool false, 1, PyVal.str "true"⟩
    ["b varchar(10) NOT NULL encode RAW "]
    (by decide) (by decide) (by decide)

/-! Claim C10. -/

/-- C10: the emitted column definition carries `NOT NULL` exactly when the
catalog's `notnull` attribute is the string `'true'`; in particular a
Python boolean `True` yields the empty clause. -/
theorem notnull_clause_iff_string_true :
    (∀ v : PyVal,
      (notNullClause v = "NOT NULL" ↔ v = PyVal.str "true") ∧
      (notNullClause v = "NOT NULL" ∨ notNullClause v = "")) ∧
    notNullClause (PyVal.pybool true) = "" := by
  constructor
  · intro v
    by_cases h : v = PyVal.str "true" <;> simp [notNullClause, h]
  · decide

end ASC

namespace ASC

/-! Claim C3.  The trigger at source line 284 compares the analyzer's
recommendation against the literal `'raw'`, not against the column's
current encoding, so a table whose recommendations all equal the current
(non-raw) encodings still gets a full migration plan. -/

/-- C3 counterexample: for table `t1`, column `c` currently has encoding
`lzo` and the analyzer recommends `lzo` (recommended = current for every
column) and force mode is off, yet the synthesizer emits a non-empty
statement list. -/
theorem recommended_equals_current_still_plans :
    (outLzo.all (fun r =>
      (findDesc descrLzo r.col).map DescRow.encoding == Option.some r.encoding))
      = true ∧
    cfgW.force = false ∧
    (synthesize cfgW "t1" descrLzo outLzo).toOption.map List.isEmpty
      = Option.some false := by
  refine ⟨by decide, by decide, by decide⟩

/-- The loop keeps `found_non_raw` unchanged across rows whose recommended
encoding is `raw`, and succeeds when every column is described. -/
theorem foldl_found_non_raw_all_raw (descr : List DescRow) :
    ∀ (output : List OutRow) (st0 : SynthState),
      (∀ r ∈ output, r.encoding = "raw") →
      (∀ r ∈ output, (findDesc descr r.col).isSome = true) →
      ∃ st, output.foldlM (processRow descr) st0 = Except.ok st ∧
        st.found_non_raw = st0.found_non_raw := by
  intro output
  induction output with
  | nil => intro st0 _ _; exact ⟨st0, rfl, rfl⟩
  | cons r rest ih =>
    intro st0 hraw hfound
    obtain ⟨d, hd⟩ := Option.isSome_iff_exists.mp (hfound r (by simp))
    have hr : r.encoding = "raw" := hraw r (by simp)
    have hpr : processRow descr st0 r = Except.ok (applyRow st0 r d) := by
      unfold processRow; rw [hd]
    obtain ⟨st, hst, hfnr⟩ := ih (applyRow st0 r d)
      (fun x hx => hraw x (by simp [hx]))
      (fun x hx => hfound x (by simp [hx]))
    refine ⟨st, ?_, ?_⟩
    · rw [List.foldlM_cons, hpr]
      simpa [Bind.bind, Except.bind] using hst
    · rw [hfnr]; simp [applyRow, hr]

/-- C3 amended: when every column's analyzer-recommended encoding is the
no-op `raw` (and every analyzed column appears in the catalog description)
and force mode is off, the synthesizer produces no statements. -/
theorem all_raw_recommendations_skip
    (cfg : Config) (tn : String) (descr : List DescRow) (output : List OutRow)
    (hforce : cfg.force = false)
    (hraw : ∀ r ∈ output, r.encoding = "raw")
    (hfound : ∀ r ∈ output, (findDesc descr r.col).isSome = true) :
    synthesize cfg tn descr output = Except.ok [] := by
  obtain ⟨st, hst, hfnr⟩ :=
    foldl_found_non_raw_all_raw descr output initState hraw hfound
  unfold synthesize processOutput
  rw [hst]
  simp [synthFromState, hfnr, initState, hforce]

/-- Witness for the amended C3 at a concrete input. -/
theorem all_raw_recommendations_skip_witness :
    synthesize cfgW "t2" descrRaw outRaw = Except.ok [] :=
  all_raw_recommendations_skip cfgW "t2" descrRaw outRaw
    (by decide) (by decide) (by decide)

/-! Claim C8. -/

/-- The loop's `has_zindex_sortkeys` flag accumulates exactly "some
processed row's column has a negative sort-key position". -/
theorem foldl_has_zindex (descr : List DescRow) :
    ∀ (output : List OutRow) (st0 st : SynthState),
      output.foldlM (processRow descr) st0 = Except.ok st →
      st.has_zindex_sortkeys
        = (st0.has_zindex_sortkeys || output.any (negSortkey descr)) := by
  intro output
  induction output with
  | nil =>
    intro st0 st h
    simp [List.foldlM, pure, Except.pure] at h
    rw [← h]
    simp
  | cons r rest ih =>
    intro st0 st h
    rw [List.foldlM_cons] at h
    obtain ⟨s1, hs1, hrest⟩ := except_bind_ok _ _ _ h
    obtain ⟨d, hd, hap⟩ := processRow_ok descr st0 s1 r hs1
    have h1 : s1.has_zindex_sortkeys
        = (st0.has_zindex_sortkeys || negSortkey descr r) := by
      subst hap
      unfold negSortkey
      rw [hd]
      by_cases hlt : d.sortkey < 0
      · have h0 : d.sortkey ≠ 0 := by omega
        simp [applyRow, hlt, h0]
      · by_cases h0 : d.sortkey = 0 <;> simp [applyRow, hlt, h0]
    rw [ih s1 st hrest, h1, List.any_cons, Bool.or_assoc]

/-- C8: the generated clause opens with `INTERLEAVED SORTKEY(` exactly when
some analyzed column has a negative sort-key position, and with plain
`SORTKEY(` when all positions are non-negative. -/
theorem interleaved_iff_negative_position
    (descr : List DescRow) (output : List OutRow) (hz : Bool)
    (h : (processOutput descr output).map SynthState.has_zindex_sortkeys
          = Except.ok hz) :
    sortkeyClauseOpen hz =
      (if output.any (negSortkey descr) then "\nINTERLEAVED SORTKEY("
       else "\nSORTKEY(") := by
  obtain ⟨st, hst, hhz⟩ := except_map_ok _ _ _ h
  have := foldl_has_zindex descr output initState st hst
  rw [← hhz, this]
  by_cases hn : output.any (negSortkey descr) = true <;>
    simp [initState, sortkeyClauseOpen, hn]

/-- Witness for C8 at a concrete input with a negative sort-key position. -/
theorem interleaved_iff_negative_position_witness :
    sortkeyClauseOpen true =
      (if outNeg.any (negSortkey descrNeg) then "\nINTERLEAVED SORTKEY("
       else "\nSORTKEY(") :=
  interleaved_iff_negative_position descrNeg outNeg true (by decide)

end ASC

namespace ASC

/-! Claim C2. -/

/-- Membership in the dict after an assignment: an entry is an old entry or
the assigned pair. -/
theorem dictInsert_mem (d : List (Nat × String)) (k : Nat) (v : String)
    (p : Nat × String) (h : p ∈ dictInsert d k v) : p ∈ d ∨ p = (k, v) := by
  unfold dictInsert at h
  split at h
  · obtain ⟨q, hq, he⟩ := List.mem_map.mp h
    by_cases hk : (q.1 == k) = true
    · right; rw [if_pos hk] at he; exact he.symm
    · left; rw [if_neg hk] at he; exact he ▸ hq
  · rcases List.mem_append.mp h with hm | hm
    · exact Or.inl hm
    · right; simpa using hm

/-- Every entry `(k, c)` of the `sortkeys` dict built by the loop comes
from an analyzer output row for column `c` whose catalog sort-key position
has absolute value `k`. -/
theorem foldl_sortkeys_inv (descr : List DescRow) :
    ∀ (output : List OutRow) (st0 st : SynthState),
      output.foldlM (processRow descr) st0 = Except.ok st →
      ∀ p ∈ st.sortkeys, p ∈ st0.sortkeys ∨
        ∃ r ∈ output, r.col = p.2 ∧
          ∃ d, findDesc descr r.col = Option.some d ∧
            d.sortkey.natAbs = p.1 := by
  intro output
  induction output with
  | nil =>
    intro st0 st h p hp
    simp [List.foldlM, pure, Except.pure] at h
    exact Or.inl (h ▸ hp)
  | cons r rest ih =>
    intro st0 st h p hp
    rw [List.foldlM_cons] at h
    obtain ⟨s1, hs1, hrest⟩ := except_bind_ok _ _ _ h
    obtain ⟨d, hd, hap⟩ := processRow_ok descr st0 s1 r hs1
    rcases ih s1 st hrest p hp with hmem | ⟨r', hr', hcol, d', hd', habs⟩
    · subst hap
      by_cases h0 : d.sortkey ≠ 0
      · have hm : p ∈ dictInsert st0.sortkeys d.sortkey.natAbs r.col := by
          simpa [applyRow, h0] using hmem
        rcases dictInsert_mem _ _ _ _ hm with hold | hnew
        · exact Or.inl hold
        · refine Or.inr ⟨r, by simp, ?_, d, hd, ?_⟩ <;> simp [hnew]
      · exact Or.inl (by simpa [applyRow, h0] using hmem)
    · exact Or.inr ⟨r', by simp [hr'], hcol, d', hd', habs⟩

/-- A successful dict lookup returns the value of a present entry with the
looked-up key. -/
theorem dictGet_mem (d : List (Nat × String)) (k : Nat) (c : String)
    (h : dictGet d k = Option.some c) : (k, c) ∈ d := by
  unfold dictGet at h
  obtain ⟨p, hp, hsnd⟩ := Option.map_eq_some'.mp h
  have hk := List.find?_some hp
  have hm := List.mem_of_find?_eq_some hp
  have : p = (k, c) := by
    have h1 : p.1 = k := by simpa using hk
    have h2 : p.2 = c := hsnd
    cases p
    simp_all
  exact this ▸ hm

/-- The successive lookups succeed exactly on the keys `s, s+1, ...` and
return the clause columns in that key order. -/
theorem collectSortkeys_spec (d : List (Nat × String)) :
    ∀ (n s : Nat) (cols : List String),
      collectSortkeys d s n = Except.ok cols →
      cols.length = n ∧
      ∀ i, (hi : i < cols.length) →
        dictGet d (s + i) = Option.some (cols.get ⟨i, hi⟩) := by
  intro n
  induction n with
  | zero =>
    intro s cols h
    simp [collectSortkeys] at h
    subst h
    exact ⟨rfl, fun i hi => by simp at hi⟩
  | succ n ih =>
    intro s cols h
    unfold collectSortkeys at h
    cases hg : dictGet d s with
    | none => rw [hg] at h; simp at h
    | some c =>
      rw [hg] at h
      obtain ⟨l, hl, hcl⟩ := except_map_ok _ _ _ h
      obtain ⟨hlen, hspec⟩ := ih (s + 1) l hl
      subst hcl
      refine ⟨by simp [hlen], ?_⟩
      intro i hi
      cases i with
      | zero => simpa using hg
      | succ j =>
        have hj : j < l.length := by simpa using hi
        have := hspec j hj
        rw [show s + (j + 1) = (s + 1) + j by omega]
        simpa using this

/-- C2: when the loop state was built successfully and every lookup
`sortkeys[1] .. sortkeys[len(sortkeys)]` succeeds, the SORTKEY clause lists
one column per ordinal, and the column at clause index `i` is an analyzer
output column whose catalog sort-key position has absolute value exactly
`i + 1` — i.e. the clause is in strictly ascending order of
`abs(sort_key_position)`, with the ordinals used as given, independently of
the order the catalog returned the columns. -/
theorem sortkey_clause_ascending
    (descr : List DescRow) (output : List OutRow)
    (sk : List (Nat × String)) (cols : List String)
    (h1 : (processOutput descr output).map SynthState.sortkeys = Except.ok sk)
    (h2 : sortkeyCols sk = Except.ok cols) :
    cols.length = sk.length ∧
    ∀ i, (hi : i < cols.length) →
      ∃ r ∈ output, r.col = cols.get ⟨i, hi⟩ ∧
        ∃ d, findDesc descr r.col = Option.some d ∧
          d.sortkey.natAbs = i + 1 := by
  obtain ⟨st, hst, hsk⟩ := except_map_ok _ _ _ h1
  obtain ⟨hlen, hspec⟩ := collectSortkeys_spec sk sk.length 1 cols h2
  refine ⟨hlen, ?_⟩
  intro i hi
  have hg := hspec i hi
  have hmem : (1 + i, cols.get ⟨i, hi⟩) ∈ sk := dictGet_mem sk (1 + i) _ hg
  have hinv := foldl_sortkeys_inv descr output initState st hst
    (1 + i, cols.get ⟨i, hi⟩) (by rw [hsk]; exact hmem)
  rcases hinv with hempty | ⟨r, hr, hcol, d, hd, habs⟩
  · simp [initState] at hempty
  · exact ⟨r, hr, hcol, d, hd, by rw [habs]; omega⟩

/-- Witness for C2: with catalog order `a` (position 2), `b` (position 1)
the clause columns are `b`, `a`; at clause index 0 the column has absolute
position 1. -/
theorem sortkey_clause_ascending_witness :
    ∃ r ∈ outTwoKeys, r.col = colsTwoKeys.get ⟨0, by decide⟩ ∧
      ∃ d, findDesc descrTwoKeys r.col = Option.some d ∧
        d.sortkey.natAbs = 0 + 1 :=
  (sortkey_clause_ascending descrTwoKeys outTwoKeys skTwoKeys colsTwoKeys
    (by decide) (by decide)).2 0 (by decide)

end ASC

namespace ASC

/-! Claim C4: string-shape helper lemmas. -/

theorem data_head_cons (s t : String) (c : Char) (l : List Char)
    (h : s.data = c :: l) : (s ++ t).data = c :: (l ++ t.data) := by
  rw [String.data_append, h]; rfl

theorem str_ne_of_head (a b : String) (ca cb : Char) (la lb : List Char)
    (ha : a.data = ca :: la) (hb : b.data = cb :: lb) (hc : ca ≠ cb) :
    a ≠ b := by
  intro e
  rw [e, hb] at ha
  injection ha with h1 _
  exact hc h1.symm

theorem str_ne_of_head2 (a b : String) (c c1 c2 : Char) (la lb : List Char)
    (ha : a.data = c :: c1 :: la) (hb : b.data = c :: c2 :: lb)
    (hc : c1 ≠ c2) : a ≠ b := by
  intro e
  rw [e, hb] at ha
  injection ha with _ h1
  injection h1 with h2 _
  exact hc h2.symm

/-- The rename of the original table to `<t>_$old` and the rename of the
staging table `<t>_$mig` back to `<t>` are never the same statement. -/
theorem renameOld_ne_renameNew (ts tn : String) :
    ("alter table " ++ ts ++ "." ++ tn ++ " rename to " ++ (tn ++ "_$old") ++ ";\n") ≠
    ("alter table " ++ ts ++ "." ++ (tn ++ "_$mig") ++ " rename to " ++ tn ++ ";\n") := by
  intro e
  have hd := congrArg String.data e
  simp only [String.data_append, List.append_assoc] at hd
  have h1 := List.append_cancel_left hd
  have h2 := List.append_cancel_left h1
  have h3 := List.append_cancel_left h2
  have h4 := List.append_cancel_left h3
  simp only [List.cons_append] at h4
  injection h4 with h5 _
  exact absurd h5 (by decide)

/-- A string starting with `-` differs from the drop-or-rename statement
(which starts with `d` or `a`). -/
theorem dash_ne_dropOrRename (cfg : Config) (tn : String) (a : String)
    (l : List Char) (ha : a.data = '-' :: l) :
    a ≠ dropOrRenameStmt cfg tn := by
  unfold dropOrRenameStmt
  by_cases hdo : cfg.drop_old_data = true
  · simp only [hdo, if_true]
    exact str_ne_of_head _ _ '-' 'd' _ _ ha
      (data_head_cons _ _ 'd' _ rfl) (by decide)
  · simp only [hdo, if_false]
    exact str_ne_of_head _ _ '-' 'a' _ _ ha
      (data_head_cons _ _ 'a' _ rfl) (by decide)

/-- A string starting with `-` differs from the staging-table rename. -/
theorem dash_ne_renameStaging (cfg : Config) (tn : String) (a : String)
    (l : List Char) (ha : a.data = '-' :: l) :
    a ≠ renameStagingStmt cfg tn := by
  unfold renameStagingStmt
  exact str_ne_of_head _ _ '-' 'a' _ _ ha
    (data_head_cons _ _ 'a' _ rfl) (by decide)

theorem commit_ne_dropOrRename (cfg : Config) (tn : String) :
    ("commit;\n" : String) ≠ dropOrRenameStmt cfg tn := by
  unfold dropOrRenameStmt
  by_cases hdo : cfg.drop_old_data = true
  · simp only [hdo, if_true]
    exact str_ne_of_head _ _ 'c' 'd' _ _ rfl
      (data_head_cons _ _ 'd' _ rfl) (by decide)
  · simp only [hdo, if_false]
    exact str_ne_of_head _ _ 'c' 'a' _ _ rfl
      (data_head_cons _ _ 'a' _ rfl) (by decide)

theorem commit_ne_renameStaging (cfg : Config) (tn : String) :
    ("commit;\n" : String) ≠ renameStagingStmt cfg tn := by
  unfold renameStagingStmt
  exact str_ne_of_head _ _ 'c' 'a' _ _ rfl
    (data_head_cons _ _ 'a' _ rfl) (by decide)

theorem analyze_ne_dropOrRename (cfg : Config) (tn : String) :
    analyzeStmt cfg tn ≠ dropOrRenameStmt cfg tn := by
  unfold analyzeStmt dropOrRenameStmt
  by_cases hdo : cfg.drop_old_data = true
  · simp only [hdo, if_true]
    exact str_ne_of_head _ _ 'a' 'd' _ _
      (data_head_cons _ _ 'a' _ rfl) (data_head_cons _ _ 'd' _ rfl) (by decide)
  · simp only [hdo, if_false]
    exact str_ne_of_head2 _ _ 'a' 'n' 'l' _ _ rfl rfl (by decide)

theorem analyze_ne_renameStaging (cfg : Config) (tn : String) :
    analyzeStmt cfg tn ≠ renameStagingStmt cfg tn := by
  unfold analyzeStmt renameStagingStmt
  exact str_ne_of_head2 _ _ 'a' 'n' 'l' _ _ rfl rfl (by decide)

/-- In an in-place migration the staging-table rename differs from the
drop-or-rename of the original table. -/
theorem renameStaging_ne_dropOrRename (cfg : Config) (tn : String)
    (hsch : cfg.target_schema = cfg.analyze_schema) :
    renameStagingStmt cfg tn ≠ dropOrRenameStmt cfg tn := by
  unfold renameStagingStmt dropOrRenameStmt
  by_cases hdo : cfg.drop_old_data = true
  · simp only [hdo, if_true]
    exact str_ne_of_head _ _ 'a' 'd' _ _
      (data_head_cons _ _ 'a' _ rfl) (data_head_cons _ _ 'd' _ rfl) (by decide)
  · simp only [hdo, if_false]
    rw [targetTableName, if_pos hsch]
    exact fun e => renameOld_ne_renameNew cfg.target_schema tn e.symm

/-- A successful synthesis goes through a successful loop pass and
`synthFromState`. -/
theorem synthesize_ok (cfg : Config) (tn : String) (descr : List DescRow)
    (output : List OutRow) (stmts : List String)
    (h : synthesize cfg tn descr output = Except.ok stmts) :
    ∃ st, processOutput descr output = Except.ok st ∧
      synthFromState cfg tn st = Except.ok stmts := by
  unfold synthesize at h
  cases hpo : processOutput descr output with
  | error e => rw [hpo] at h; exact absurd h (by simp)
  | ok st => rw [hpo] at h; exact ⟨st, rfl, h⟩

/-- A successful `buildCreate1` either leaves the create statement as the
prefix or extends it on the right (with the SORTKEY block). -/
theorem buildCreate1_shape (st : SynthState) (c0 c1 : String)
    (h : buildCreate1 st c0 = Except.ok c1) :
    c1 = c0 ∨ ∃ s, c1 = c0 ++ s := by
  unfold buildCreate1 at h
  split at h
  · obtain ⟨cols, _, hc⟩ := except_map_ok _ _ _ h
    right
    refine ⟨" " ++
      ((sortkeyClauseOpen st.has_zindex_sortkeys ++ renderSortkeyBody cols) ++
        " "), ?_⟩
    rw [← hc, String.append_assoc, String.append_assoc]
  · simp at h
    exact Or.inl h.symm

/-- C4: every non-empty plan the synthesizer builds ends with the commit
statement, and when the target schema equals the analysis schema the plan
contains exactly one drop-or-rename of the original table and exactly one
rename of the staging table back to the original name. -/
theorem plan_ends_with_commit_and_unique_swap
    (cfg : Config) (tn : String) (descr : List DescRow) (output : List OutRow)
    (stmts : List String)
    (h : synthesize cfg tn descr output = Except.ok stmts)
    (hne : stmts ≠ []) :
    stmts.getLast? = Option.some "commit;\n" ∧
    (cfg.target_schema = cfg.analyze_schema →
      stmts.count (dropOrRenameStmt cfg tn) = 1 ∧
      stmts.count (renameStagingStmt cfg tn) = 1) := by
  obtain ⟨st, hpo, h⟩ := synthesize_ok cfg tn descr output stmts h
  unfold synthFromState at h
  by_cases htrig : (st.found_non_raw || cfg.force) = true
  · rw [if_pos htrig] at h
    obtain ⟨c1, hc1, hstmts⟩ := except_map_ok _ _ _ h
    have hl0 : ∃ l, (createPrefix cfg tn st).data = '-' :: l := by
      unfold createPrefix
      exact ⟨_, data_head_cons _ _ '-' _ rfl⟩
    obtain ⟨l0, hl0⟩ := hl0
    have hct : ∃ l, (c1 ++ ";\n").data = '-' :: l := by
      rcases buildCreate1_shape st _ c1 hc1 with he | ⟨s, he⟩
      · subst he; exact ⟨_, data_head_cons _ _ '-' _ hl0⟩
      · subst he
        exact ⟨_, data_head_cons _ _ '-' _ (data_head_cons _ _ '-' _ hl0)⟩
    obtain ⟨lct, hct⟩ := hct
    have hin : ∃ l, (insertStmt cfg tn).data = '-' :: l := by
      unfold insertStmt
      exact ⟨_, data_head_cons _ _ '-' _ rfl⟩
    obtain ⟨lin, hin⟩ := hin
    subst hstmts
    constructor
    · unfold assembleStmts
      by_cases hsch : cfg.target_schema = cfg.analyze_schema <;> simp [hsch]
    · intro hsch
      unfold assembleStmts
      rw [if_pos hsch]
      have n1 := dash_ne_dropOrRename cfg tn _ _ hct
      have n2 := dash_ne_dropOrRename cfg tn _ _ hin
      have n3 := analyze_ne_dropOrRename cfg tn
      have n4 := renameStaging_ne_dropOrRename cfg tn hsch
      have n5 := commit_ne_dropOrRename cfg tn
      have m1 := dash_ne_renameStaging cfg tn _ _ hct
      have m2 := dash_ne_renameStaging cfg tn _ _ hin
      have m3 := analyze_ne_renameStaging cfg tn
      have m4 : dropOrRenameStmt cfg tn ≠ renameStagingStmt cfg tn := n4.symm
      have m5 := commit_ne_renameStaging cfg tn
      constructor
      · simp [List.count_cons, List.count_nil, beq_iff_eq,
          n1, n2, n3, n4, n5]
      · simp [List.count_cons, List.count_nil, beq_iff_eq,
          m1, m2, m3, m4, m5]
  · rw [if_neg htrig] at h
    simp at h
    exact absurd h hne

/-- Witness for C4 at a concrete in-place migration. -/
theorem plan_ends_with_commit_and_unique_swap_witness :
    stmtsPlan.getLast? = Option.some "commit;\n" ∧
    (cfgPlan.target_schema = cfgPlan.analyze_schema →
      stmtsPlan.count (dropOrRenameStmt cfgPlan "t1") = 1 ∧
      stmtsPlan.count (renameStagingStmt cfgPlan "t1") = 1) :=
  plan_ends_with_commit_and_unique_swap cfgPlan "t1" descrPlan outPlan
    stmtsPlan (by decide) (by decide)

end ASC

namespace ASC

/-! Claim C7. -/

/-- When no command fails, every command is attempted, nothing is rolled
back, and `True` is returned. -/
theorem runCommandsFrom_all_ok (fails : Nat → Bool) :
    ∀ (cmds : List String) (s : Nat),
      (∀ i, i < cmds.length → fails (s + i) = false) →
      runCommandsFrom fails s cmds = ⟨cmds, false, true⟩ := by
  intro cmds
  induction cmds with
  | nil => intro s _; rfl
  | cons c rest ih =>
    intro s hok
    have h0 : fails s = false := by simpa using hok 0 (by simp)
    have hrest := ih (s + 1) (fun i hi => by
      have := hok (i + 1) (by simpa using hi)
      rw [show (s + 1) + i = s + (i + 1) by omega]
      exact this)
    simp [runCommandsFrom, h0, hrest]

/-- When the `k`-th command is the first to fail, exactly the commands up
to and including it are attempted, the transaction is rolled back, and
`False` is returned. -/
theorem runCommandsFrom_first_fail (fails : Nat → Bool) :
    ∀ (cmds : List String) (s k : Nat),
      k < cmds.length → fails (s + k) = true →
      (∀ j, j < k → fails (s + j) = false) →
      runCommandsFrom fails s cmds = ⟨cmds.take (k + 1), true, false⟩ := by
  intro cmds
  induction cmds with
  | nil => intro s k hk; simp at hk
  | cons c rest ih =>
    intro s k hk hfail hmin
    cases k with
    | zero =>
      have h0 : fails s = true := by simpa using hfail
      simp [runCommandsFrom, h0]
    | succ k' =>
      have h0 : fails s = false := by simpa using hmin 0 (Nat.succ_pos _)
      have hrest := ih (s + 1) k' (by simpa using hk)
        (by rw [show (s + 1) + k' = s + (k' + 1) by omega]; exact hfail)
        (fun j hj => by
          rw [show (s + 1) + j = s + (j + 1) by omega]
          exact hmin (j + 1) (by omega))
      simp [runCommandsFrom, h0, hrest]

/-- C7: the migration executor runs the plan's statements in sequence; on
the first failing statement it rolls back and reports failure without
attempting the rest, and when every statement succeeds it reports
success. -/
theorem run_commands_first_fail_or_success
    (fails : Nat → Bool) (commands : List String) :
    ((∀ i, i < commands.length → fails i = false) →
      run_commands fails commands = ⟨commands, false, true⟩) ∧
    (∀ k, k < commands.length → fails k = true →
      (∀ j, j < k → fails j = false) →
      run_commands fails commands = ⟨commands.take (k + 1), true, false⟩) := by
  constructor
  · intro hok
    exact runCommandsFrom_all_ok fails commands 0
      (fun i hi => by rw [Nat.zero_add]; exact hok i hi)
  · intro k hk hfail hmin
    exact runCommandsFrom_first_fail fails commands 0 k hk
      (by rw [Nat.zero_add]; exact hfail)
      (fun j hj => by rw [Nat.zero_add]; exact hmin j hj)

/-- Witness for C7: with a three-statement plan whose second statement
fails, only the first two are attempted, the transaction is rolled back,
and `False` is returned. -/
theorem run_commands_first_fail_or_success_witness :
    run_commands failsSecond cmdsThree = ⟨["s1;", "s2;"], true, false⟩ :=
  (run_commands_first_fail_or_success failsSecond cmdsThree).2 1
    (by decide) (by decide)
    (fun j hj => by
      have hj0 : j = 0 := by omega
      subst hj0; rfl)

/-! Claim C5.  `RETRY_TIMEOUT` is `100/1000` in Python 2, which is the
integer `0`, so every backoff sleep lasts `2**attempt_count * 0 = 0`
seconds even though the comment at source line 56 ("timeout for retries -
100ms") and the spec call for `2^n * 0.1` seconds. -/

/-- C5: the retry loop makes exactly 10 execute attempts when every
attempt fails and then gives up, but the sleep after the first failed
attempt is `0` seconds, not the `2^1 * 0.1 = 0.2` seconds the claim
states. -/
theorem retry_backoff_sleeps_zero :
    RETRY_TIMEOUT = 0 ∧
    (analyzeRetryTrace (fun _ => true)).2 = false ∧
    (analyzeRetryTrace (fun _ => true)).1.count SessionAct.execute = 10 ∧
    (analyzeRetryTrace (fun _ => true)).1 =
      [SessionAct.execute, SessionAct.sleep 0, SessionAct.execute,
       SessionAct.sleep 0, SessionAct.execute, SessionAct.sleep 0,
       SessionAct.execute, SessionAct.sleep 0, SessionAct.execute,
       SessionAct.sleep 0, SessionAct.execute, SessionAct.sleep 0,
       SessionAct.execute, SessionAct.sleep 0, SessionAct.execute,
       SessionAct.sleep 0, SessionAct.execute, SessionAct.sleep 0,
       SessionAct.execute, SessionAct.sleep 0] ∧
    ((backoffSleepSeconds 1 : Int) : ℚ) ≠ 2 ^ 1 * (1 / 10 : ℚ) := by
  refine ⟨by decide, by decide, by decide, by decide, ?_⟩
  rw [show backoffSleepSeconds 1 = 0 from by decide]
  norm_num

/-! Claim C6.  Source line 255 reads `local_conn.rollback` — an attribute
reference with no call parentheses — so the session's transaction is never
rolled back between attempts. -/

/-- C6: no execution of the retry loop ever issues a rollback on the
session, whatever the pattern of failures. -/
theorem retry_never_rolls_back (fails : Nat → Bool) :
    (analyzeRetryTrace fails).1.count SessionAct.rollback = 0 := by
  have hgen : ∀ rem count,
      (analyzeRetryFrom fails count rem).1.count SessionAct.rollback = 0 := by
    intro rem
    induction rem with
    | zero => intro count; rfl
    | succ n ih =>
      intro count
      by_cases hf : fails count = true <;>
        simp [analyzeRetryFrom, hf, List.count_cons, ih (count + 1)]
  exact hgen analyze_retry 0

/-! Claim C9.  The aggregation at source lines 592-627 appends `[result]`
(a list) to `worker_output`, so each `ret` is a list, `ret != OK` is
always true in Python 2, and `sys.exit(ret)` is called with a list, which
exits with status 1 — the final `sys.exit(OK)` is unreachable. -/

/-- C9: whatever per-table statuses the workers return — in particular
when they are all `OK` — the process exit status computed by `main`'s
aggregation is 1, not `OK = 0`. -/
theorem main_exits_one_even_on_success :
    (∀ result : List Int, mainExitStatus result = 1) ∧
    mainExitStatus [OK, OK] = 1 ∧ (1 : Int) ≠ OK := by
  refine ⟨fun result => rfl, rfl, by decide⟩

end ASC
